import Mathlib

/-!
Shallow embedding of sqldef's `schema/parser.go` (package `schema`), which
translates already-parsed SQL DDL syntax trees into the schema model
(`Table`, `Column`, `Index`, `Value`, `DDL`), together with proofs of its
specification properties.

The external grammar engine (`sqlparser.ParseWithMode`) is an external
collaborator: it is modelled as a function parameter
`parse : ParserMode → String → Except String Statement`, so every theorem
about the dispatcher and the splitter is quantified over an arbitrary
grammar engine.  Go machine integers are modelled as `Int` with explicit
64-bit saturation where the standard library saturates; Go `float64`
payloads are abstracted to exact rationals (`Rat`).
-/

namespace Schema

/-- Embeds `sqlparser.ParserMode` (only the two modes used by `parseDDL`). -/
inductive ParserMode where
  | mysql
  | postgres
deriving DecidableEq

/-- Embeds `schema.GeneratorMode`, a Go `int`-backed enumeration; values
outside the enumerated constants are representable, as in Go. -/
abbrev GeneratorMode : Type := Int

/-- `GeneratorModeMysql` constant. -/
def GeneratorModeMysql : GeneratorMode := (0 : Int)

/-- `GeneratorModePostgres` constant. -/
def GeneratorModePostgres : GeneratorMode := (1 : Int)

/-- Embeds `sqlparser.ValType`, a Go `int`-backed constant set; modelled as
`Nat` so that values outside the known constants are representable. -/
def StrVal : Nat := 0

/-- `sqlparser.IntVal` constant. -/
def IntVal : Nat := 1

/-- `sqlparser.FloatVal` constant. -/
def FloatVal : Nat := 2

/-- `sqlparser.HexNum` constant. -/
def HexNum : Nat := 3

/-- `sqlparser.HexVal` constant. -/
def HexVal : Nat := 4

/-- `sqlparser.ValArg` constant. -/
def ValArg : Nat := 5

/-- `sqlparser.BitVal` constant. -/
def BitVal : Nat := 6

/-- Embeds `sqlparser.SQLVal`: a literal token with its grammar-assigned
kind tag (Go field `Type`, here `typ`) and raw bytes (Go field `Val`). -/
structure SQLVal where
  typ : Nat
  Val : String
deriving DecidableEq

/-- Embeds `sqlparser.ColumnType` (the fields read by `parseTable`):
`Type` (here `typ`), `Unsigned`, `NotNull`, `Autoincrement`, `Default`,
`Length`, `Scale`, `KeyOpt`. -/
structure ColumnTypeNode where
  typ : String
  Unsigned : Bool
  NotNull : Bool
  Autoincrement : Bool
  Default : Option SQLVal
  Length : Option SQLVal
  Scale : Option SQLVal
  KeyOpt : Nat
deriving DecidableEq

/-- Embeds `sqlparser.ColumnDefinition`: column name (already rendered to a
string, Go `Name.String()`) and its type node (Go field `Type`, here `typ`). -/
structure ColumnDef where
  Name : String
  typ : ColumnTypeNode
deriving DecidableEq

/-- Embeds `sqlparser.IndexInfo` (Go field `Type` is `typ`). -/
structure IndexInfo where
  Name : String
  typ : String
  Primary : Bool
  Unique : Bool
deriving DecidableEq

/-- Embeds an element of `sqlparser.IndexDefinition.Columns`: the column
identifier (rendered to a string) and an optional prefix-length literal. -/
structure IndexColumnNode where
  Column : String
  Length : Option SQLVal
deriving DecidableEq

/-- Embeds `sqlparser.IndexDefinition`. -/
structure IndexDef where
  Info : IndexInfo
  Columns : List IndexColumnNode
deriving DecidableEq

/-- Embeds `sqlparser.TableSpec` (the fields read by `parseTable`). -/
structure TableSpecNode where
  Columns : List ColumnDef
  Indexes : List IndexDef
deriving DecidableEq

/-- Embeds `sqlparser.TableName` (its `Name` identifier rendered to a string). -/
structure TableName where
  Name : String
deriving DecidableEq

/-- Embeds `sqlparser.IndexSpec` (the fields read by `parseIndex`). -/
structure IndexSpecNode where
  Name : String
  Unique : Bool
deriving DecidableEq

/-- Embeds `*sqlparser.DDL`: the syntax node for a DDL statement, with the
fields read by `parseDDL`, `parseTable` and `parseIndex`. -/
structure DDLNode where
  Action : String
  TableSpec : TableSpecNode
  NewName : TableName
  Table : TableName
  IndexSpec : Option IndexSpecNode
  IndexCols : List String
deriving DecidableEq

/-- Embeds `sqlparser.Statement`: the interface returned by the grammar
engine; `parseDDL` only distinguishes `*sqlparser.DDL` from every other
implementation (its `default` branch). -/
inductive Statement where
  | ddlStmt (stmt : DDLNode)
  | otherStmt
deriving DecidableEq

/-- The external grammar collaborator `sqlparser.ParseWithMode`, as a
function parameter: it returns a syntax tree or a syntax-error message. -/
def ParseFn : Type := ParserMode → String → Except String Statement

/-- Embeds `schema.ValueType` restricted to the tags `parseValue` can
assign (its `else` branch returns `nil` before any other tag is used). -/
inductive ValueType where
  | str
  | int
  | float
  | hexNum
  | hex
  | valArg
  | bit
deriving DecidableEq

/-- Embeds `schema.Value`: tag, raw token text, and the payload fields
written by `parseValue`; unassigned fields hold the Go zero value.
The `float64` payload is abstracted to an exact rational. -/
structure Value where
  valueType : ValueType
  raw : String
  strVal : String
  intVal : Int
  floatVal : Rat
  bitVal : Bool
deriving DecidableEq

/-- Numeric value of a digit list (most significant first); assumes digits. -/
def natFromDigits (l : List Char) : Nat :=
  l.foldl (fun a c => a * 10 + (c.toNat - 48)) 0

/-- A nonempty all-digit list decodes to its numeric value, else `none`. -/
def digitsToNat? (l : List Char) : Option Nat :=
  if l.isEmpty then none
  else if l.all Char.isDigit then some (natFromDigits l) else none

/-- Embedding of the base-10 syntax accepted by Go `strconv.Atoi`
(standard library): an optional sign followed by one or more decimal
digits; `none` on any other input (Go's `ErrSyntax`). -/
def goParseIntTen? (s : String) : Option Int :=
  match s.data with
  | [] => none
  | c :: rest =>
    let signDigits : Bool × List Char :=
      if c = '+' then (false, rest)
      else if c = '-' then (true, rest)
      else (false, c :: rest)
    match digitsToNat? signDigits.2 with
    | none => none
    | some n => some (if signDigits.1 then -(n : Int) else (n : Int))

/-- Largest Go `int` (64-bit) value. -/
def maxInt64 : Int := 2 ^ 63 - 1

/-- Smallest Go `int` (64-bit) value. -/
def minInt64 : Int := -(2 ^ 63)

/-- Embedding of Go `strconv.Atoi` with its error discarded, as in
`intVal, _ := strconv.Atoi(...)`: a syntax error yields `0` (Go returns
`0, ErrSyntax`), and an out-of-range value saturates at the 64-bit bounds
(Go returns the nearest representable value with `ErrRange`). -/
def goAtoi (s : String) : Int :=
  match goParseIntTen? s with
  | none => 0
  | some v => if v > maxInt64 then maxInt64 else if v < minInt64 then minInt64 else v

/-- Modelled from the spec: Go `strconv.ParseFloat` (standard library, not
under `src/`) parses the raw bytes as an IEEE-754 double; here IEEE-754
rounding, infinities and NaN are abstracted away, and a well-formed decimal
literal `[sign] digits [. digits] [(e|E) [sign] digits]` (with at least one
mantissa digit) decodes to its exact rational value; malformed input yields
`none` (Go returns `0, ErrSyntax`, and the caller discards the error). -/
def goParseFloat? (s : String) : Option Rat :=
  let chars := s.data
  let signRest : Bool × List Char :=
    match chars with
    | '+' :: r => (false, r)
    | '-' :: r => (true, r)
    | _ => (false, chars)
  let neg := signRest.1
  let rest := signRest.2
  let intPart := rest.takeWhile Char.isDigit
  let rest1 := rest.dropWhile Char.isDigit
  let fracRest : List Char × List Char :=
    match rest1 with
    | '.' :: r => (r.takeWhile Char.isDigit, r.dropWhile Char.isDigit)
    | _ => ([], rest1)
  let fracPart := fracRest.1
  let rest2 := fracRest.2
  if intPart.isEmpty && fracPart.isEmpty then none
  else
    let base : Rat := (natFromDigits (intPart ++ fracPart) : Rat) / (10 : Rat) ^ fracPart.length
    match rest2 with
    | [] => some (if neg then -base else base)
    | e :: r =>
      if e = 'e' ∨ e = 'E' then
        let esign : Bool × List Char :=
          match r with
          | '+' :: rr => (false, rr)
          | '-' :: rr => (true, rr)
          | _ => (false, r)
        match digitsToNat? esign.2 with
        | none => none
        | some ex =>
          let scaled := if esign.1 then base / (10 : Rat) ^ ex else base * (10 : Rat) ^ ex
          some (if neg then -scaled else scaled)
      else none

/-- Embedding of Go `strconv.ParseBool` (standard library). -/
def goParseBool (s : String) : Option Bool :=
  if s = "1" ∨ s = "t" ∨ s = "T" ∨ s = "TRUE" ∨ s = "true" ∨ s = "True" then some true
  else if s = "0" ∨ s = "f" ∨ s = "F" ∨ s = "FALSE" ∨ s = "false" ∨ s = "False" then some false
  else none

/-- Embedding of Go `fmt.Sprint` applied to a `bool`. -/
def fmtSprintBool (b : Bool) : String :=
  if b then "true" else "false"

/-- Embeds `castBool` (parser.go line 14): round-trips a `BoolVal` through
`fmt.Sprint` and `strconv.ParseBool`, discarding the error (zero value
`false` on failure). -/
def castBool (val : Bool) : Bool :=
  (goParseBool (fmtSprintBool val)).getD false

/-- Embeds `parseValue` (parser.go line 19): maps the grammar kind tag to a
`ValueType` (or `nil` for `nil` input and for an unknown tag), then builds
a `Value` carrying the raw bytes and decodes the payload for the
`Str`/`Int`/`Float`/`Bit` cases. -/
def parseValue (val : Option SQLVal) : Option Value :=
  match val with
  | none => none
  | some v =>
    let vt : Option ValueType :=
      if v.typ = StrVal then some ValueType.str
      else if v.typ = IntVal then some ValueType.int
      else if v.typ = FloatVal then some ValueType.float
      else if v.typ = HexNum then some ValueType.hexNum
      else if v.typ = HexVal then some ValueType.hex
      else if v.typ = ValArg then some ValueType.valArg
      else if v.typ = BitVal then some ValueType.bit
      else none
    match vt with
    | none => none
    | some valueType =>
      let ret : Value :=
        { valueType := valueType, raw := v.Val,
          strVal := "", intVal := 0, floatVal := 0, bitVal := false }
      some (match valueType with
        | ValueType.str => { ret with strVal := v.Val }
        | ValueType.int => { ret with intVal := goAtoi v.Val }
        | ValueType.float => { ret with floatVal := (goParseFloat? v.Val).getD 0 }
        | ValueType.bit => { ret with bitVal := if v.Val = "1" then true else false }
        | _ => ret)

/-- Embeds `schema.Column` (the fields written by `parseTable`; the
ordinal-coupled `ColumnKeyOption` is carried as the grammar's ordinal). -/
structure Column where
  name : String
  typeName : String
  unsigned : Bool
  notNull : Bool
  autoIncrement : Bool
  defaultVal : Option Value
  length : Option Value
  scale : Option Value
  keyOption : Nat
deriving DecidableEq

/-- Embeds `schema.IndexColumn`. -/
structure IndexColumn where
  column : String
  length : Option Value
deriving DecidableEq

/-- Embeds `schema.Index`. -/
structure Index where
  name : String
  indexType : String
  columns : List IndexColumn
  primary : Bool
  unique : Bool
deriving DecidableEq

/-- Embeds `schema.Table`. -/
structure Table where
  name : String
  columns : List Column
  indexes : List Index
deriving DecidableEq

/-- Embeds the closed `schema.DDL` variant family built by `parseDDL`:
`CreateTable`, `CreateIndex`, `AddIndex`, `AddPrimaryKey`, each retaining
the original statement text. -/
inductive DDL where
  | createTable (statement : String) (table : Table)
  | createIndex (statement : String) (tableName : String) (index : Index)
  | addIndex (statement : String) (tableName : String) (index : Index)
  | addPrimaryKey (statement : String) (tableName : String) (index : Index)
deriving DecidableEq

/-- The distinct error constructions of parser.go, as a tagged type:
a grammar-layer rejection propagated by `parseDDL`, the two
`fmt.Errorf` calls of `parseDDL` (unsupported DDL action / non-DDL
statement, both embedding the original statement text), and the
`fmt.Errorf` of `parseIndex` (missing index spec, embedding the node). -/
inductive Err where
  | parseError (msg : String)
  | unsupportedAction (action : String) (statement : String)
  | unsupportedStatement (statement : String)
  | missingIndexSpec (stmt : DDLNode)
deriving DecidableEq

/-- Embeds `parseTable` (parser.go line 68): one `Column` appended per
column definition, one `Index` (with its appended `IndexColumn` list)
per inline index definition. -/
def parseTable (stmt : DDLNode) : Table :=
  let columns := stmt.TableSpec.Columns.foldl (fun acc parsedCol =>
    acc ++ [{ name := parsedCol.Name,
              typeName := parsedCol.typ.typ,
              unsigned := castBool parsedCol.typ.Unsigned,
              notNull := castBool parsedCol.typ.NotNull,
              autoIncrement := castBool parsedCol.typ.Autoincrement,
              defaultVal := parseValue parsedCol.typ.Default,
              length := parseValue parsedCol.typ.Length,
              scale := parseValue parsedCol.typ.Scale,
              keyOption := parsedCol.typ.KeyOpt }]) []
  let indexes := stmt.TableSpec.Indexes.foldl (fun acc indexDef =>
    let indexColumns := indexDef.Columns.foldl (fun a column =>
      a ++ [{ column := column.Column, length := parseValue column.Length }]) []
    acc ++ [{ name := indexDef.Info.Name,
              indexType := indexDef.Info.typ,
              columns := indexColumns,
              primary := indexDef.Info.Primary,
              unique := indexDef.Info.Unique }]) []
  { name := stmt.NewName.Name, columns := columns, indexes := indexes }

/-- Embeds `parseIndex` (parser.go line 116): fails when the node carries
no index spec; otherwise builds an `Index` from the node's column
identifiers, with prefix length always absent, `indexType` empty and
`primary` false. -/
def parseIndex (stmt : DDLNode) : Except Err Index :=
  match stmt.IndexSpec with
  | none => Except.error (Err.missingIndexSpec stmt)
  | some ispec =>
    let indexColumns := stmt.IndexCols.foldl (fun acc colIdent =>
      acc ++ [{ column := colIdent, length := none }]) []
    Except.ok { name := ispec.Name,
                indexType := "",
                columns := indexColumns,
                primary := false,
                unique := ispec.Unique }

/-- Embeds the mode selection of `parseDDL` (parser.go lines 144-149):
Postgres mode selects the Postgres grammar; every other mode value selects
the MySQL grammar. -/
def parserModeOf (mode : GeneratorMode) : ParserMode :=
  if mode = GeneratorModePostgres then ParserMode.postgres else ParserMode.mysql

/-- Embeds `parseDDL` (parser.go line 143): parse the statement under the
selected grammar mode, then dispatch on the node kind and action tag. -/
def parseDDL (parse : ParseFn) (mode : GeneratorMode) (ddl : String) : Except Err DDL :=
  match parse (parserModeOf mode) ddl with
  | Except.error err => Except.error (Err.parseError err)
  | Except.ok s =>
    match s with
    | Statement.ddlStmt stmt =>
      if stmt.Action = "create" then
        Except.ok (DDL.createTable ddl (parseTable stmt))
      else if stmt.Action = "create index" then
        match parseIndex stmt with
        | Except.error e => Except.error e
        | Except.ok index => Except.ok (DDL.createIndex ddl stmt.Table.Name index)
      else if stmt.Action = "add index" then
        match parseIndex stmt with
        | Except.error e => Except.error e
        | Except.ok index => Except.ok (DDL.addIndex ddl stmt.Table.Name index)
      else if stmt.Action = "add primary key" then
        match parseIndex stmt with
        | Except.error e => Except.error e
        | Except.ok index => Except.ok (DDL.addPrimaryKey ddl stmt.Table.Name index)
      else
        Except.error (Err.unsupportedAction stmt.Action ddl)
    | Statement.otherStmt => Except.error (Err.unsupportedStatement ddl)

/-- Embedding of Go `unicode.IsSpace` (standard library), as used by
`strings.TrimSpace`. -/
def goIsSpace (c : Char) : Bool :=
  let n := c.toNat
  n == 0x20 || n == 0x9 || n == 0xA || n == 0xB || n == 0xC || n == 0xD ||
  n == 0x85 || n == 0xA0 || n == 0x1680 ||
  (decide (0x2000 ≤ n) && decide (n ≤ 0x200A)) ||
  n == 0x2028 || n == 0x2029 || n == 0x202F || n == 0x205F || n == 0x3000

/-- Embedding of Go `strings.TrimSpace` (standard library): drops leading
and trailing white space. -/
def trimSpace (s : String) : String :=
  String.mk (((s.data.dropWhile goIsSpace).reverse.dropWhile goIsSpace).reverse)

/-- The loop of `parseDDLs` (parser.go lines 211-222), with the `result`
accumulator explicit: trim each candidate, skip the empty ones, and stop
at the first `parseDDL` failure, returning the accumulator with the error. -/
def parseDDLsLoop (parse : ParseFn) (mode : GeneratorMode) :
    List String → List DDL → List DDL × Option Err
  | [], result => (result, none)
  | ddl :: rest, result =>
    let t := trimSpace ddl
    if t.isEmpty then parseDDLsLoop parse mode rest result
    else
      match parseDDL parse mode t with
      | Except.error err => (result, some err)
      | Except.ok parsed => parseDDLsLoop parse mode rest (result ++ [parsed])

/-- Embeds `parseDDLs` (parser.go line 207): split the batch on `;` and
run the loop with an empty accumulator; the Go pair return
`([]DDL, error)` is a `List DDL × Option Err`. -/
def parseDDLs (parse : ParseFn) (mode : GeneratorMode) (str : String) :
    List DDL × Option Err :=
  parseDDLsLoop parse mode (str.splitOn ";") []

/-- Dispatch a list of candidate statements in order, stopping at the
first failure and returning the successfully parsed ones so far with it. -/
def dispatchAll (parse : ParseFn) (mode : GeneratorMode) :
    List String → List DDL × Option Err
  | [] => ([], none)
  | c :: rest =>
    match parseDDL parse mode c with
    | Except.error e => ([], some e)
    | Except.ok d =>
      let r := dispatchAll parse mode rest
      (d :: r.1, r.2)

/-- Follows the spec's words (Statement Splitter contract): split the
batch text on the `;` character, trim surrounding white space from each
candidate, skip candidates that become empty, dispatch the remaining
candidates in order, and stop at the first failure returning partial
progress together with the error. -/
def splitAndParse (parse : ParseFn) (mode : GeneratorMode) (str : String) :
    List DDL × Option Err :=
  dispatchAll parse mode (((str.splitOn ";").map trimSpace).filter (fun t => !t.isEmpty))

/-- A Go-style `append` loop over a list equals a `map`. -/
lemma foldl_append_singleton {α β : Type} (f : α → β) :
    ∀ (l : List α) (acc : List β),
      List.foldl (fun a x => a ++ [f x]) acc l = acc ++ l.map f := by
  intro l
  induction l with
  | nil => intro acc; simp
  | cons x xs ih => intro acc; simp [List.foldl_cons, ih]

/-- `castBool` round-trips a boolean unchanged. -/
lemma castBool_eq (b : Bool) : castBool b = b := by
  cases b <;> rfl

/-- C1: for a parse result that is a DDL node, `parseDDL` returns the `DDL`
variant matching the action tag — `"create"` yields `CreateTable`,
`"create index"` yields `CreateIndex`, `"add index"` yields `AddIndex`,
`"add primary key"` yields `AddPrimaryKey` (each propagating a `parseIndex`
failure) — and for every other action tag it fails with an
`unsupportedAction` error carrying the original statement text; a parse
result that is not a DDL node fails with an `unsupportedStatement` error. -/
theorem c1_dispatch_by_action (parse : ParseFn) (mode : GeneratorMode) (ddl : String) :
    (∀ stmt : DDLNode, parse (parserModeOf mode) ddl = Except.ok (Statement.ddlStmt stmt) →
      ((stmt.Action = "create" →
          parseDDL parse mode ddl = Except.ok (DDL.createTable ddl (parseTable stmt)))
       ∧ (stmt.Action = "create index" →
          parseDDL parse mode ddl = (parseIndex stmt).map (DDL.createIndex ddl stmt.Table.Name))
       ∧ (stmt.Action = "add index" →
          parseDDL parse mode ddl = (parseIndex stmt).map (DDL.addIndex ddl stmt.Table.Name))
       ∧ (stmt.Action = "add primary key" →
          parseDDL parse mode ddl = (parseIndex stmt).map (DDL.addPrimaryKey ddl stmt.Table.Name))
       ∧ (stmt.Action ≠ "create" → stmt.Action ≠ "create index" →
          stmt.Action ≠ "add index" → stmt.Action ≠ "add primary key" →
          parseDDL parse mode ddl = Except.error (Err.unsupportedAction stmt.Action ddl))))
    ∧ (parse (parserModeOf mode) ddl = Except.ok Statement.otherStmt →
        parseDDL parse mode ddl = Except.error (Err.unsupportedStatement ddl)) := by
  constructor
  · intro stmt hp
    refine ⟨?_, ?_, ?_, ?_, ?_⟩
    · intro hA
      simp [parseDDL, hp, hA]
    · intro hA
      cases hI : parseIndex stmt <;> simp [parseDDL, hp, hA, hI, Except.map]
    · intro hA
      cases hI : parseIndex stmt <;> simp [parseDDL, hp, hA, hI, Except.map]
    · intro hA
      cases hI : parseIndex stmt <;> simp [parseDDL, hp, hA, hI, Except.map]
    · intro h1 h2 h3 h4
      simp [parseDDL, hp, h1, h2, h3, h4]
  · intro hp
    simp [parseDDL, hp]

/-- Concrete DDL node used to exercise `c1_dispatch_by_action`. -/
def c1Node : DDLNode :=
  { Action := "create",
    TableSpec := { Columns := [], Indexes := [] },
    NewName := { Name := "t" },
    Table := { Name := "t" },
    IndexSpec := none,
    IndexCols := [] }

/-- Concrete grammar engine used to exercise `c1_dispatch_by_action`. -/
def c1Parse : ParseFn := fun _ _ => Except.ok (Statement.ddlStmt c1Node)

/-- Witness: `c1_dispatch_by_action` at a concrete grammar engine, node
and statement text. -/
theorem c1_dispatch_by_action_witness :
    parseDDL c1Parse GeneratorModeMysql "CREATE TABLE t (a int)" =
      Except.ok (DDL.createTable "CREATE TABLE t (a int)" (parseTable c1Node)) :=
  ((c1_dispatch_by_action c1Parse GeneratorModeMysql "CREATE TABLE t (a int)").1
    c1Node rfl).1 rfl

/-- The `parseDDLs` loop equals dispatching the trimmed nonempty
candidates in order, prepending the accumulator. -/
lemma parseDDLsLoop_eq (parse : ParseFn) (mode : GeneratorMode) :
    ∀ (l : List String) (acc : List DDL),
      parseDDLsLoop parse mode l acc =
        (acc ++ (dispatchAll parse mode ((l.map trimSpace).filter (fun t => !t.isEmpty))).1,
         (dispatchAll parse mode ((l.map trimSpace).filter (fun t => !t.isEmpty))).2) := by
  intro l
  induction l with
  | nil => intro acc; simp [parseDDLsLoop, dispatchAll]
  | cons ddl rest ih =>
    intro acc
    by_cases hE : (trimSpace ddl).isEmpty
    · simp [parseDDLsLoop, hE, ih, List.filter_cons]
    · cases hP : parseDDL parse mode (trimSpace ddl) with
      | error e => simp [parseDDLsLoop, hE, hP, List.filter_cons, dispatchAll]
      | ok d => simp [parseDDLsLoop, hE, hP, ih, List.filter_cons, dispatchAll]

/-- C2: `parseDDLs` splits the batch on `;`, trims each candidate, skips
the candidates that become empty, dispatches the remaining candidates in
order, and on the first dispatch failure stops immediately, returning the
DDLs parsed so far together with the error (partial progress): it equals
the spec-side `splitAndParse`. -/
theorem c2_parseDDLs_splits (parse : ParseFn) (mode : GeneratorMode) (str : String) :
    parseDDLs parse mode str = splitAndParse parse mode str := by
  simp [parseDDLs, splitAndParse, parseDDLsLoop_eq]

/-- C3: `parseTable` produces exactly one `Column` per column definition,
in declaration order, with default/length/scale each obtained by one
`parseValue` call, and exactly one `Index` per inline index definition, in
declared order, whose column list is the (columnName, prefix length via
`parseValue`) pairs in declared order — no reordering, no deduplication,
no uniqueness validation: the result is exactly the `map` of the node
lists. -/
theorem c3_parseTable_shape (stmt : DDLNode) :
    parseTable stmt =
      { name := stmt.NewName.Name,
        columns := stmt.TableSpec.Columns.map (fun parsedCol =>
          { name := parsedCol.Name,
            typeName := parsedCol.typ.typ,
            unsigned := parsedCol.typ.Unsigned,
            notNull := parsedCol.typ.NotNull,
            autoIncrement := parsedCol.typ.Autoincrement,
            defaultVal := parseValue parsedCol.typ.Default,
            length := parseValue parsedCol.typ.Length,
            scale := parseValue parsedCol.typ.Scale,
            keyOption := parsedCol.typ.KeyOpt }),
        indexes := stmt.TableSpec.Indexes.map (fun indexDef =>
          { name := indexDef.Info.Name,
            indexType := indexDef.Info.typ,
            columns := indexDef.Columns.map (fun column =>
              { column := column.Column, length := parseValue column.Length }),
            primary := indexDef.Info.Primary,
            unique := indexDef.Info.Unique }) } := by
  simp [parseTable, foldl_append_singleton, castBool_eq]

/-- C4: `parseIndex` fails with a missing-index-spec error when the node
lacks an index spec; otherwise it returns an `Index` whose columns are
the node's column identifiers each with prefix length `none`, whose
`indexType` is the empty string, whose `primary` flag is `false`, and
whose `unique` flag is read from the node's own flag. -/
theorem c4_parseIndex_spec (stmt : DDLNode) :
    (stmt.IndexSpec = none → parseIndex stmt = Except.error (Err.missingIndexSpec stmt)) ∧
    (∀ ispec : IndexSpecNode, stmt.IndexSpec = some ispec →
      parseIndex stmt = Except.ok
        { name := ispec.Name,
          indexType := "",
          columns := stmt.IndexCols.map (fun colIdent => { column := colIdent, length := none }),
          primary := false,
          unique := ispec.Unique }) := by
  constructor
  · intro h
    simp [parseIndex, h]
  · intro ispec h
    simp [parseIndex, h, foldl_append_singleton]

/-- Concrete node used to exercise `c4_parseIndex_spec`. -/
def c4Node : DDLNode :=
  { Action := "create index",
    TableSpec := { Columns := [], Indexes := [] },
    NewName := { Name := "t" },
    Table := { Name := "t" },
    IndexSpec := some { Name := "idx", Unique := true },
    IndexCols := ["col"] }

/-- Witness: `c4_parseIndex_spec` at a concrete `CREATE INDEX idx ON t (col)`
node. -/
theorem c4_parseIndex_spec_witness :
    parseIndex c4Node = Except.ok
      { name := "idx", indexType := "",
        columns := [{ column := "col", length := none }],
        primary := false, unique := true } := by
  simpa [c4Node] using (c4_parseIndex_spec c4Node).2 { Name := "idx", Unique := true } rfl

/-- C5: for an `IntVal` literal the extractor stores `goAtoi` of the raw
bytes (base-10 signed integer, error discarded), so malformed input yields
integer payload zero; for a `FloatVal` literal it stores the decoded value
with a default of zero on malformed input; in both cases a `Value` is
returned — numeric decode failure is never surfaced as an error. -/
theorem c5_numeric_decode_default_zero (v : SQLVal) :
    (v.typ = IntVal →
      (parseValue (some v)).map Value.intVal = some (goAtoi v.Val) ∧
      (goParseIntTen? v.Val = none → (parseValue (some v)).map Value.intVal = some 0)) ∧
    (v.typ = FloatVal →
      (parseValue (some v)).map Value.floatVal = some ((goParseFloat? v.Val).getD 0) ∧
      (goParseFloat? v.Val = none → (parseValue (some v)).map Value.floatVal = some 0)) := by
  constructor
  · intro h
    refine ⟨?_, ?_⟩
    · simp [parseValue, h, StrVal, IntVal]
    · intro hm
      simp [parseValue, h, StrVal, IntVal, goAtoi, hm]
  · intro h
    refine ⟨?_, ?_⟩
    · simp [parseValue, h, StrVal, IntVal, FloatVal]
    · intro hm
      simp [parseValue, h, StrVal, IntVal, FloatVal, hm]

/-- Witness: `c5_numeric_decode_default_zero` at malformed numeric raw
bytes. -/
theorem c5_numeric_decode_default_zero_witness :
    goParseIntTen? "12abc" = none ∧ goParseFloat? "x" = none ∧
    (parseValue (some { typ := IntVal, Val := "12abc" })).map Value.intVal = some 0 ∧
    (parseValue (some { typ := FloatVal, Val := "x" })).map Value.floatVal = some 0 :=
  ⟨rfl, rfl,
   ((c5_numeric_decode_default_zero { typ := IntVal, Val := "12abc" }).1 rfl).2 rfl,
   ((c5_numeric_decode_default_zero { typ := FloatVal, Val := "x" }).2 rfl).2 rfl⟩

/-- C6: for a `BitVal` literal, raw text equal to the single character
`"1"` decodes to `bitVal = true`, and every other raw text decodes to
`bitVal = false`. -/
theorem c6_bit_decode (v : SQLVal) (h : v.typ = BitVal) :
    (v.Val = "1" → (parseValue (some v)).map Value.bitVal = some true) ∧
    (v.Val ≠ "1" → (parseValue (some v)).map Value.bitVal = some false) := by
  constructor
  · intro h1
    simp [parseValue, h, h1, StrVal, IntVal, FloatVal, HexNum, HexVal, ValArg, BitVal]
  · intro h1
    simp [parseValue, h, h1, StrVal, IntVal, FloatVal, HexNum, HexVal, ValArg, BitVal]

/-- Witness: `c6_bit_decode` at raw `"1"` and at garbage raw `"x"`. -/
theorem c6_bit_decode_witness :
    (parseValue (some { typ := BitVal, Val := "1" })).map Value.bitVal = some true ∧
    (parseValue (some { typ := BitVal, Val := "x" })).map Value.bitVal = some false :=
  ⟨(c6_bit_decode { typ := BitVal, Val := "1" } rfl).1 rfl,
   (c6_bit_decode { typ := BitVal, Val := "x" } rfl).2 (by decide)⟩

/-- C7: `parseValue` returns `none` for an absent literal, and returns
`none` (rather than an error) when the grammar-assigned kind tag is
outside the known set of seven constants. -/
theorem c7_unknown_kind_none (v : SQLVal) :
    parseValue none = none ∧
    (v.typ ≠ StrVal → v.typ ≠ IntVal → v.typ ≠ FloatVal → v.typ ≠ HexNum →
     v.typ ≠ HexVal → v.typ ≠ ValArg → v.typ ≠ BitVal →
     parseValue (some v) = none) := by
  constructor
  · rfl
  · intro h1 h2 h3 h4 h5 h6 h7
    simp [parseValue, h1, h2, h3, h4, h5, h6, h7]

/-- Witness: `c7_unknown_kind_none` at the out-of-range kind tag `99`. -/
theorem c7_unknown_kind_none_witness :
    parseValue (some { typ := 99, Val := "x" }) = none :=
  (c7_unknown_kind_none { typ := 99, Val := "x" }).2
    (by decide) (by decide) (by decide) (by decide) (by decide) (by decide) (by decide)

/-- C8: every `Value` produced by `parseValue` retains the original raw
token text alongside its decoded payload, for every literal kind. -/
theorem c8_raw_retained (v : SQLVal) (val : Value)
    (h : parseValue (some v) = some val) : val.raw = v.Val := by
  by_cases h1 : v.typ = StrVal
  · simp [parseValue, StrVal, IntVal, FloatVal, HexNum, HexVal, ValArg, BitVal, h1] at h
    subst h; rfl
  · by_cases h2 : v.typ = IntVal
    · simp [parseValue, StrVal, IntVal, FloatVal, HexNum, HexVal, ValArg, BitVal, h1, h2] at h
      subst h; rfl
    · by_cases h3 : v.typ = FloatVal
      · simp [parseValue, StrVal, IntVal, FloatVal, HexNum, HexVal, ValArg, BitVal,
          h1, h2, h3] at h
        subst h; rfl
      · by_cases h4 : v.typ = HexNum
        · simp [parseValue, StrVal, IntVal, FloatVal, HexNum, HexVal, ValArg, BitVal,
            h1, h2, h3, h4] at h
          subst h; rfl
        · by_cases h5 : v.typ = HexVal
          · simp [parseValue, StrVal, IntVal, FloatVal, HexNum, HexVal, ValArg, BitVal,
              h1, h2, h3, h4, h5] at h
            subst h; rfl
          · by_cases h6 : v.typ = ValArg
            · simp [parseValue, StrVal, IntVal, FloatVal, HexNum, HexVal, ValArg, BitVal,
                h1, h2, h3, h4, h5, h6] at h
              subst h; rfl
            · by_cases h7 : v.typ = BitVal
              · simp [parseValue, StrVal, IntVal, FloatVal, HexNum, HexVal, ValArg, BitVal,
                  h1, h2, h3, h4, h5, h6, h7] at h
                subst h; rfl
              · simp [parseValue, h1, h2, h3, h4, h5, h6, h7] at h

/-- Witness: `c8_raw_retained` at a concrete string literal. -/
theorem c8_raw_retained_witness :
    parseValue (some { typ := StrVal, Val := "abc" }) =
      some { valueType := ValueType.str, raw := "abc", strVal := "abc",
             intVal := 0, floatVal := 0, bitVal := false } ∧
    Value.raw { valueType := ValueType.str, raw := "abc", strVal := "abc",
                intVal := 0, floatVal := 0, bitVal := false } = "abc" :=
  ⟨rfl,
   c8_raw_retained { typ := StrVal, Val := "abc" }
     { valueType := ValueType.str, raw := "abc", strVal := "abc",
       intVal := 0, floatVal := 0, bitVal := false } rfl⟩

/-- C9: `parseDDL` is a deterministic function of its grammar engine, mode
and statement text — two runs on identical inputs produce structurally
equal results (identical `DDL` values or identical errors). -/
theorem c9_deterministic (parse : ParseFn) (mode : GeneratorMode) (ddl : String)
    (r₁ r₂ : Except Err DDL)
    (h₁ : parseDDL parse mode ddl = r₁) (h₂ : parseDDL parse mode ddl = r₂) :
    r₁ = r₂ :=
  h₁.symm.trans h₂

/-- Witness: `c9_deterministic` at a concrete grammar engine and input. -/
theorem c9_deterministic_witness :
    (Except.error (Err.parseError "boom") : Except Err DDL) =
      Except.error (Err.parseError "boom") :=
  c9_deterministic (fun _ _ => Except.error "boom") GeneratorModeMysql "x" _ _ rfl rfl

/-- C10: every mode value other than `GeneratorModePostgres` — including
values outside the enumerated set — selects the MySQL grammar mode, and
`parseDDL` behaves exactly as in MySQL mode; an out-of-range mode is never
rejected. -/
theorem c10_mode_fallback_mysql (mode : GeneratorMode) (h : mode ≠ GeneratorModePostgres) :
    parserModeOf mode = ParserMode.mysql ∧
    ∀ (parse : ParseFn) (ddl : String),
      parseDDL parse mode ddl = parseDDL parse GeneratorModeMysql ddl := by
  have hm : parserModeOf mode = ParserMode.mysql := by simp [parserModeOf, h]
  have hmy : parserModeOf GeneratorModeMysql = ParserMode.mysql := by
    simp [parserModeOf, GeneratorModeMysql, GeneratorModePostgres]
  refine ⟨hm, ?_⟩
  intro parse ddl
  unfold parseDDL
  rw [hm, hmy]

/-- Witness: `c10_mode_fallback_mysql` at the out-of-range mode value `5`. -/
theorem c10_mode_fallback_mysql_witness :
    (5 : GeneratorMode) ≠ GeneratorModePostgres ∧ parserModeOf 5 = ParserMode.mysql :=
  ⟨by decide, (c10_mode_fallback_mysql 5 (by decide)).1⟩

end Schema
